import Mathlib

/-!
Verification of the STL/MSTL decomposition engine of this repository
(seasonal-trend decomposition via loess, and its multi-seasonal extension).

The result containers and the variance/strength metrics are translated
directly from `src/stl_result.rs` and `src/mstl_result.rs`.  The numerical
engine itself (modules `stl_impl`, `stl_params`, `mstl_impl`, `mstl_params`,
`error` declared in `src/lib.rs`) is not part of the published sources, so it
is modelled from the design document (sections 4.1-4.4), with the error
messages and output conventions pinned down by the unit tests in
`src/stl.rs` and `src/mstl.rs`.

Floating-point arithmetic is modelled by exact rational arithmetic except in
the dedicated `FP` development near the end, which models the IEEE special
values (NaN, infinities) needed to analyse the strength metric's degenerate
cases.
-/

namespace StlRs

/-- Errors returned by a fit, per `src/error.rs` (module declared in
`src/lib.rs`; the two variants and their messages are pinned by the tests in
`src/stl.rs` and `src/mstl.rs`). -/
inductive Error where
  | parameter : String → Error
  | series : String → Error
  deriving DecidableEq, Repr

/-- A STL result, from `src/stl_result.rs`: four sequences. -/
structure StlResult where
  seasonal : List ℚ
  trend : List ℚ
  remainder : List ℚ
  weights : List ℚ
  deriving DecidableEq, Repr

/-- A MSTL result, from `src/mstl_result.rs`: one seasonal sequence per
period plus shared trend and remainder. -/
structure MstlResult where
  seasonal : List (List ℚ)
  trend : List ℚ
  remainder : List ℚ
  deriving DecidableEq, Repr

/-- Sample variance from `src/stl_result.rs` (`fn var`): mean is the sum
divided by the length, deviations are squared (`powf(2.0)`), and the sum of
squared deviations is divided by `len - 1`. -/
def var (series : List ℚ) : ℚ :=
  let mean := series.sum / (series.length : ℚ)
  (series.map (fun v => (v - mean) ^ 2)).sum / ((series.length : ℚ) - 1)

/-- Strength metric from `src/stl_result.rs` (`fn strength`): the component
and remainder are added pointwise (`zip` + `map`), and the result is
`(1.0 - var(remainder) / var(component + remainder)).max(0.0)`. -/
def strength (component remainder : List ℚ) : ℚ :=
  let sr := List.zipWith (· + ·) component remainder
  max (1 - var remainder / var sr) 0

/-- Accessor `StlResult::seasonal_strength` from `src/stl_result.rs`. -/
def StlResult.seasonal_strength (r : StlResult) : ℚ :=
  strength r.seasonal r.remainder

/-- Accessor `StlResult::trend_strength` from `src/stl_result.rs`. -/
def StlResult.trend_strength (r : StlResult) : ℚ :=
  strength r.trend r.remainder

/-- Accessor `MstlResult::seasonal_strength` from `src/mstl_result.rs`: one strength
per seasonal component, each against the shared remainder. -/
def MstlResult.seasonal_strength (r : MstlResult) : List ℚ :=
  r.seasonal.map (fun s => strength s r.remainder)

/-- Accessor `MstlResult::trend_strength` from `src/mstl_result.rs`. -/
def MstlResult.trend_strength (r : MstlResult) : ℚ :=
  strength r.trend r.remainder

/-- Smallest odd integer greater than or equal to `n` (used by the defaulting
rules of section 4.3). -/
def nextOdd (n : ℕ) : ℕ :=
  if n % 2 = 0 then n + 1 else n

/-- Tricube weight kernel: `(1 - u^3)^3` for `u < 1`, zero from the window
boundary outwards (section 4.1: weight is 0 at the boundary, 1 at the query
point). -/
def tricube (u : ℚ) : ℚ :=
  if u < 1 then (1 - u ^ 3) ^ 3 else 0

/-- Modelled from the spec: window selection of the loess smoother
(section 4.1) over data at integer positions `1..n`.  The `k` nearest
neighbours of the query position form a contiguous block; it is centred on
the query and clamped to `[1, n]`, which also realises extrapolated queries
outside `[1, n]` (the window then sticks to the nearer end).  Ties for even
`k` are resolved towards the left, a detail the spec leaves open ("ties
broken by symmetric expansion"). -/
def loessWindow (n k : ℕ) (q : ℤ) : ℤ × ℤ :=
  if n ≤ k then (1, n)
  else
    let nl := max 1 (min (q - ((k - 1) / 2 : ℕ)) (n - k + 1))
    (nl, nl + k - 1)

/-- Modelled from the spec: one loess estimate (section 4.1).  Tricube
distance weights are scaled by the farthest selected neighbour's distance,
multiplied by the external (robustness) weights when supplied; degree 0 fits
a weighted mean, degree 1 a weighted least-squares line evaluated at the
query; degenerate cases (zero-variance design, all-zero weights) fall back
to the weighted mean.  Division by zero follows the rational-arithmetic
convention `x / 0 = 0`. -/
def loessEst (y : List ℚ) (k : ℕ) (deg : ℤ) (rw : Option (List ℚ)) (q : ℤ) : ℚ :=
  let n := y.length
  let w := loessWindow n k q
  let idxs := (List.range (w.2 - w.1 + 1).toNat).map (fun (i : ℕ) => w.1 + (i : ℤ))
  let h : ℚ := max ((q : ℚ) - (w.1 : ℚ)) ((w.2 : ℚ) - (q : ℚ))
  let wt : ℤ → ℚ := fun x =>
    (if h = 0 then 1 else tricube (|(x : ℚ) - (q : ℚ)| / h)) *
      (match rw with
       | none => 1
       | some r => r.getD (x - 1).toNat 0)
  let yv : ℤ → ℚ := fun x => y.getD (x - 1).toNat 0
  let sw := (idxs.map wt).sum
  let wmean := (idxs.map (fun x => wt x * yv x)).sum / sw
  if deg = 1 then
    let xbar := (idxs.map (fun x => wt x * (x : ℚ))).sum / sw
    let sxx := (idxs.map (fun x => wt x * ((x : ℚ) - xbar) ^ 2)).sum
    if sxx = 0 then wmean
    else wmean + (idxs.map (fun x => wt x * ((x : ℚ) - xbar) * yv x)).sum / sxx *
      ((q : ℚ) - xbar)
  else wmean

/-- Modelled from the spec: loess evaluation with the jump-and-interpolate
acceleration (section 4.1).  Positions `lo, lo+jump, lo+2*jump, ...` are
evaluated exactly, the first and last position of the range are always
evaluated exactly, and skipped positions are linearly interpolated between
the surrounding exactly-evaluated anchors. -/
def loessAt (y : List ℚ) (k : ℕ) (deg : ℤ) (jump : ℕ) (rw : Option (List ℚ))
    (lo hi t : ℤ) : ℚ :=
  let a := lo + ((t - lo).toNat / jump : ℕ) * (jump : ℤ)
  if a = t ∨ t = hi then loessEst y k deg rw t
  else
    let b := min (a + (jump : ℤ)) hi
    let va := loessEst y k deg rw a
    let vb := loessEst y k deg rw b
    va + (vb - va) * ((t : ℚ) - (a : ℚ)) / ((b : ℚ) - (a : ℚ))

/-- Modelled from the spec: smooth the series `y` (data at positions
`1..y.length`), producing `cnt` values at the integer positions
`lo, lo+1, ..., lo+cnt-1` (section 4.1; `lo = 0` and `cnt = m+2` realise the
one-point extrapolation on each end used by the cycle-subseries step of
section 4.2). -/
def loessSmooth (y : List ℚ) (k : ℕ) (deg : ℤ) (jump : ℕ) (rw : Option (List ℚ))
    (lo : ℤ) (cnt : ℕ) : List ℚ :=
  (List.range cnt).map
    (fun (i : ℕ) => loessAt y k deg jump rw lo (lo + (cnt : ℤ) - 1) (lo + (i : ℤ)))

/-- Centred moving average with window `w`: the low-pass step of
section 4.3 applies it with windows `p`, `p`, `3`.  Input of length `L`
yields `L - w + 1` averages. -/
def movingAvg (xs : List ℚ) (w : ℕ) : List ℚ :=
  (List.range (xs.length + 1 - w)).map
    (fun i => ((List.range w).map (fun l => xs.getD (i + l) 0)).sum / (w : ℚ))

/-- Sample variance written the way the design document states it
(section 4.5): sum of squared deviations from the mean over `N - 1`. -/
def sampleVariance (xs : List ℚ) : ℚ :=
  (xs.map (fun x => (x - xs.sum / (xs.length : ℚ)) ^ 2)).sum
    / ((xs.length : ℚ) - 1)

/-- Strength written the way the design document states it (section 4.5):
`max(0, 1 - Var(remainder) / Var(component + remainder))`, the pointwise sum
taken over the common index range. -/
def strengthSpec (c r : List ℚ) : ℚ :=
  max 0 (1 - sampleVariance r /
    sampleVariance ((List.range r.length).map (fun i => c.getD i 0 + r.getD i 0)))

/-- STL parameters, per section 3 of the design document and the builder
surface of `src/stl.rs` / `src/lib.rs` (module `stl_params` is declared in
`src/lib.rs` but not published): optional seasonal/trend/low-pass lengths,
three degrees, three jumps, robust flag, optional inner/outer loop counts. -/
structure StlParams where
  seasonal_length : Option ℕ := none
  trend_length : Option ℕ := none
  low_pass_length : Option ℕ := none
  seasonal_degree : ℤ := 1
  trend_degree : ℤ := 1
  low_pass_degree : ℤ := 1
  seasonal_jump : Option ℕ := none
  trend_jump : Option ℕ := none
  low_pass_jump : Option ℕ := none
  inner_loops : Option ℕ := none
  outer_loops : Option ℕ := none
  robust : Bool := false
  deriving DecidableEq, Repr

/-- Fully resolved smoothing configuration after the defaulting rules of
section 4.3 have been applied. -/
structure StlConfig where
  period : ℕ
  ns : ℕ
  nt : ℕ
  nl : ℕ
  sdeg : ℤ
  tdeg : ℤ
  ldeg : ℤ
  sjump : ℕ
  tjump : ℕ
  ljump : ℕ
  inner : ℕ
  outer : ℕ
  robust : Bool
  deriving DecidableEq, Repr

/-- Modelled from the spec: the defaulting rules of section 4.3, applied once
at fit time, only for unset fields.  Seasonal length defaults to the period;
trend length to the smallest odd integer at least
`ceil(1.5 * period / (1 - 1.5 / seasonal_len_odd))`, floored at 3; low-pass
length to the smallest odd integer at least the period; inner loops to 2 if
robust else 5; outer loops to 15 if robust else 0.  Jumps default to 1, the
choice the binding layer in `src/lib.rs` makes explicit (the spec leaves
jump defaulting open). -/
def StlParams.resolve (prm : StlParams) (period : ℕ) : StlConfig :=
  let ns := prm.seasonal_length.getD period
  let slo := nextOdd ns
  let ntDefault :=
    max 3 (nextOdd (Int.toNat ⌈(3 / 2 * (period : ℚ)) / (1 - 3 / 2 / (slo : ℚ))⌉))
  { period := period
    ns := ns
    nt := prm.trend_length.getD ntDefault
    nl := prm.low_pass_length.getD (nextOdd period)
    sdeg := prm.seasonal_degree
    tdeg := prm.trend_degree
    ldeg := prm.low_pass_degree
    sjump := prm.seasonal_jump.getD 1
    tjump := prm.trend_jump.getD 1
    ljump := prm.low_pass_jump.getD 1
    inner := prm.inner_loops.getD (if prm.robust then 2 else 5)
    outer := prm.outer_loops.getD (if prm.robust then 15 else 0)
    robust := prm.robust }

/-- Modelled from the spec: the cycle-subseries processor (section 4.2).
The detrended series `D` is split into `period` interleaved subseries,
each is loess-smoothed with the seasonal smoothing parameters and extended
by one extrapolated point on each end, and the smoothed subseries are
reassembled by original index into one sequence of length `N + 2 * period`. -/
def cycleSubseries (c : StlConfig) (rw : Option (List ℚ)) (D : List ℚ) : List ℚ :=
  let N := D.length
  let p := c.period
  let sub : ℕ → List ℚ := fun j =>
    (List.range ((N - j + (p - 1)) / p)).map (fun t => D.getD (j + t * p) 0)
  let subw : ℕ → Option (List ℚ) := fun j =>
    rw.map (fun r => (List.range ((N - j + (p - 1)) / p)).map (fun t => r.getD (j + t * p) 0))
  let smoothed : ℕ → List ℚ := fun j =>
    loessSmooth (sub j) c.ns c.sdeg c.sjump (subw j) 0 ((sub j).length + 2)
  (List.range (N + 2 * p)).map (fun i => (smoothed (i % p)).getD (i / p) 0)

/-- Modelled from the spec: the low-pass filter of section 4.3, step 3:
three centred moving averages of windows `p`, `p`, `3`, then a loess pass
with the low-pass smoothing parameters over positions `1..N`. -/
def lowPass (c : StlConfig) (N : ℕ) (Cex : List ℚ) : List ℚ :=
  loessSmooth (movingAvg (movingAvg (movingAvg Cex c.period) c.period) 3)
    c.nl c.ldeg c.ljump none 1 N

/-- Modelled from the spec: one inner-loop iteration of section 4.3 given
the current trend estimate: detrend, seasonal-fit via cycle-subseries,
low-pass, deseasonalise (trimming the extrapolated period on each end),
trend-fit on the deseasonalised series.  Returns the new seasonal and trend
estimates. -/
def stlInner (c : StlConfig) (Y : List ℚ) (rw : Option (List ℚ)) (T : List ℚ) :
    List ℚ × List ℚ :=
  let N := Y.length
  let D := List.zipWith (· - ·) Y T
  let Cex := cycleSubseries c rw D
  let L := lowPass c N Cex
  let S := (List.range N).map (fun i => Cex.getD (c.period + i) 0 - L.getD i 0)
  let T2 := loessSmooth (List.zipWith (· - ·) Y S) c.nt c.tdeg c.tjump rw 1 N
  (S, T2)

/-- The inner loop of section 4.3 run `n` times from a given state. -/
def stlInnerN (c : StlConfig) (Y : List ℚ) (rw : Option (List ℚ)) :
    ℕ → List ℚ × List ℚ → List ℚ × List ℚ
  | 0, st => st
  | n + 1, st => stlInnerN c Y rw n (stlInner c Y rw st.2)

/-- Modelled from the spec: robustness weights of section 4.3, bisquare
function of the remainder with scale `h = 6 * median(|R|)`: weight
`(1 - (|R_i| / h)^2)^2` clamped to `[0, 1]`, forced to 0 when `|R_i| >= h`.
The median of an even-length list is the mean of the two middle elements
(the spec does not fix this convention). -/
def medianQ (xs : List ℚ) : ℚ :=
  let s := xs.insertionSort (· ≤ ·)
  let n := xs.length
  if n = 0 then 0
  else if n % 2 = 1 then s.getD (n / 2) 0
  else (s.getD (n / 2 - 1) 0 + s.getD (n / 2) 0) / 2

/-- One bisquare weight, per section 4.3: `(1 - (|r| / h)^2)^2` clamped to
`[0, 1]`, forced to 0 when `|r| >= h`. -/
def bisquareWeight (h r : ℚ) : ℚ :=
  if h ≤ |r| then 0 else min 1 (max 0 ((1 - (|r| / h) ^ 2) ^ 2))

/-- Bisquare robustness weights from a remainder, per section 4.3. -/
def robustnessWeights (R : List ℚ) : List ℚ :=
  R.map (bisquareWeight (6 * medianQ (R.map (fun r => |r|))))

/-- Modelled from the spec: the outer (robustness) loop of section 4.3.
Each round runs the full inner loop; while outer iterations remain the
remainder is formed and turned into robustness weights that feed every
subsequent loess call.  Returns the final seasonal and trend estimates and
the robustness weights, when any round computed them. -/
def stlOuter (c : StlConfig) (Y : List ℚ) :
    ℕ → Option (List ℚ) → List ℚ × List ℚ → List ℚ × List ℚ × Option (List ℚ)
  | 0, w, st =>
    let st2 := stlInnerN c Y w c.inner st
    (st2.1, st2.2, w)
  | k + 1, w, st =>
    let st2 := stlInnerN c Y w c.inner st
    let R := (List.range Y.length).map
      (fun i => Y.getD i 0 - st2.1.getD i 0 - st2.2.getD i 0)
    stlOuter c Y k (some (robustnessWeights R)) st2

/-- Modelled from the spec: the STL engine of section 4.3.  Starting from a
zero trend estimate, the inner loop runs to convergence of the iteration
budget; in robust mode the outer loop recomputes robustness weights between
rounds.  The remainder is `Y - S - T`; weights default to 1 for all points
when not robust or when no robustness round ran. -/
def stlCore (c : StlConfig) (Y : List ℚ) : StlResult :=
  let N := Y.length
  let zero : List ℚ := List.replicate N 0
  if c.robust then
    let r := stlOuter c Y c.outer none (zero, zero)
    { seasonal := r.1
      trend := r.2.1
      remainder := (List.range N).map
        (fun i => Y.getD i 0 - r.1.getD i 0 - r.2.1.getD i 0)
      weights := match r.2.2 with
        | none => List.replicate N 1
        | some w => w }
  else
    let st := stlInnerN c Y none c.inner (zero, zero)
    { seasonal := st.1
      trend := st.2
      remainder := (List.range N).map
        (fun i => Y.getD i 0 - st.1.getD i 0 - st.2.getD i 0)
      weights := List.replicate N 1 }

/-- Modelled from the spec: the eager validation of section 4.3 (failure
conditions) and section 7, checked before any computation.  The two error
messages appearing in the repository's tests (`src/stl.rs`) are used
verbatim; the remaining messages follow the same builder-field naming
convention.  Returns the error detected, if any. -/
def StlParams.validate (prm : StlParams) (n period : ℕ) : Option Error :=
  let c := prm.resolve period
  if period < 2 then
    some (.parameter ("period must be at least 2"))
  else if n < 2 * period then
    some (.series ("series has less than two periods"))
  else if prm.seasonal_degree ≠ 0 ∧ prm.seasonal_degree ≠ 1 then
    some (.parameter ("seasonal_degree must be 0 or 1"))
  else if prm.trend_degree ≠ 0 ∧ prm.trend_degree ≠ 1 then
    some (.parameter ("trend_degree must be 0 or 1"))
  else if prm.low_pass_degree ≠ 0 ∧ prm.low_pass_degree ≠ 1 then
    some (.parameter ("low_pass_degree must be 0 or 1"))
  else if c.ns < 1 then
    some (.parameter ("seasonal_length must be at least 1"))
  else if c.nt < 1 then
    some (.parameter ("trend_length must be at least 1"))
  else if c.nl < 1 then
    some (.parameter ("low_pass_length must be at least 1"))
  else if c.sjump < 1 then
    some (.parameter ("seasonal_jump must be at least 1"))
  else if c.tjump < 1 then
    some (.parameter ("trend_jump must be at least 1"))
  else if c.ljump < 1 then
    some (.parameter ("low_pass_jump must be at least 1"))
  else
    none

/-- Modelled from the spec: `StlParams::fit` (sections 4.3, 6 and 7):
validation happens eagerly before any computation, a failed fit returns the
error as a value, and a successful fit runs the STL engine on the resolved
configuration. -/
def StlParams.fit (prm : StlParams) (series : List ℚ) (period : ℕ) :
    Except Error StlResult :=
  match prm.validate series.length period with
  | some e => .error e
  | none => .ok (stlCore (prm.resolve period) series)

/-- Entry point `Stl::fit` from `src/stl.rs`: fit with default parameters. -/
def Stl.fit (series : List ℚ) (period : ℕ) : Except Error StlResult :=
  StlParams.fit {} series period

/-- MSTL parameters, per section 3 of the design document and the builder
surface of `src/mstl.rs` (module `mstl_params` is declared in `src/lib.rs`
but not published): an embedded STL parameter template and an optional
power-transform exponent lambda. -/
structure MstlParams where
  stl_params : StlParams := {}
  lambda : Option ℚ := none
  deriving DecidableEq, Repr

/-- Modelled from the spec: the per-period STL passes of section 4.4 over
the periods sorted ascending, each paired with its position in the
caller-supplied list.  The working residual starts at the (possibly
transformed) input; each pass fits STL on the residual with the current
period, records `(caller position, seasonal component)`, removes the
seasonal component from the residual, and the trend of the final pass (the
largest period) is kept.  A failing sub-fit propagates its error. -/
def runSorted (prm : StlParams) :
    List (ℕ × ℕ) → List ℚ → Except Error (List (ℕ × List ℚ) × List ℚ)
  | [], _ => .ok ([], [])
  | (p, i) :: rest, resid =>
    match prm.fit resid p with
    | .error e => .error e
    | .ok r =>
      match runSorted prm rest (List.zipWith (· - ·) resid r.seasonal) with
      | .error e => .error e
      | .ok (comps, tr) =>
        .ok ((i, r.seasonal) :: comps, if rest.isEmpty then r.trend else tr)

/-- Modelled from the spec: the eager MSTL validation of section 4.4, with
the three error messages pinned by the tests in `src/mstl.rs`. -/
def MstlParams.validate (prm : MstlParams) (periods : List ℕ) : Option Error :=
  if periods.isEmpty then
    some (.parameter ("periods must not be empty"))
  else if periods.any (fun p => p < 2) then
    some (.parameter ("periods must be at least 2"))
  else
    match prm.lambda with
    | none => none
    | some l =>
      if l < 0 ∨ 1 < l then some (.parameter ("lambda must be between 0 and 1"))
      else none

/-- The working series of section 4.4: the input, power-transformed by `f`
exactly when a lambda is configured. -/
def mstlX (f : ℚ → ℚ) (prm : MstlParams) (series : List ℚ) : List ℚ :=
  match prm.lambda with
  | none => series
  | some _ => series.map f

/-- The caller's periods paired with their positions and sorted ascending by
period (section 4.4: sort periods ascending internally, expose results in
caller order). -/
def mstlPairs (periods : List ℕ) : List (ℕ × ℕ) :=
  (periods.zip (List.range periods.length)).insertionSort (fun u v => u.1 ≤ v.1)

/-- Assembly of the MSTL result (section 4.4): seasonal components exposed
in the caller's original period order, the trend of the final STL pass, and
the remainder `working series - (sum of all seasonal components) - trend`. -/
def mstlAssemble (X : List ℚ) (k N : ℕ) (comps : List (ℕ × List ℚ))
    (trend : List ℚ) : MstlResult :=
  let seasonal := (List.range k).map (fun i => (comps.lookup i).getD [])
  { seasonal := seasonal
    trend := trend
    remainder := (List.range N).map
      (fun i => X.getD i 0 - (seasonal.map (fun s => s.getD i 0)).sum - trend.getD i 0) }

/-- Modelled from the spec: the MSTL engine of section 4.4, parameterised by
the scalar transform `f` that stands for the Box-Cox map
`v ↦ (v^λ - 1)/λ` (for `λ ≠ 0`) or `v ↦ ln v` (for `λ = 0`) selected by
`prm.lambda`.  The transform is a parameter because `v^λ` is not expressible
in exact rational arithmetic for a general `λ ∈ [0, 1]`; `boxcoxAtOne`
below instantiates it at `λ = 1`, where the spec's formula is exactly
`v ↦ (v^1 - 1)/1`.  When `lambda` is unset no transform is applied.
After validation, the periods (paired with their caller positions) are
sorted ascending and processed by `runSorted`; the seasonal components are
exposed in the caller's original period order; the remainder subtracts the
seasonal components and trend from the working (transformed) series — the
reconstruction target the repository's own expected vectors pin down
(`src/mstl.rs`, `test_lambda` and `test_lambda_zero` reconstruct the
transformed series). -/
def MstlParams.fitWith (f : ℚ → ℚ) (prm : MstlParams) (series : List ℚ)
    (periods : List ℕ) : Except Error MstlResult :=
  match prm.validate periods with
  | some e => .error e
  | none =>
    match runSorted prm.stl_params (mstlPairs periods) (mstlX f prm series) with
    | .error e => .error e
    | .ok (comps, trend) =>
      .ok (mstlAssemble (mstlX f prm series) periods.length series.length comps trend)

/-- Entry point `MstlParams::fit` for fits without a configured transform: with
`lambda` unset the transform parameter is irrelevant, and the identity is
passed. -/
def MstlParams.fit (prm : MstlParams) (series : List ℚ) (periods : List ℕ) :
    Except Error MstlResult :=
  MstlParams.fitWith id prm series periods

/-- Entry point `Mstl::fit` from `src/mstl.rs`: fit with default parameters. -/
def Mstl.fit (series : List ℚ) (periods : List ℕ) : Except Error MstlResult :=
  MstlParams.fit {} series periods

/-- The spec's Box-Cox transform `v ↦ (v^λ - 1)/λ` at `λ = 1`, the value in
`[0, 1]` at which the formula is exact in rational arithmetic. -/
def boxcoxAtOne (v : ℚ) : ℚ :=
  (v ^ (1 : ℕ) - 1) / 1

/-- The fixed 30-point series used throughout the repository's tests
(`generate_series` in `src/stl.rs` and `src/mstl.rs`). -/
def series30 : List ℚ :=
  [5, 9, 2, 9, 0, 6, 3, 8, 5, 8, 7, 8, 8, 0, 2, 5, 0,
   5, 6, 7, 3, 6, 1, 4, 4, 4, 3, 7, 5, 8]

/-- A small six-point series used for concrete instantiations. -/
def series6 : List ℚ := [1, 2, 3, 4, 5, 6]

/-- MSTL parameters with the power-transform exponent set to 1. -/
def mprmLam1 : MstlParams := { lambda := some 1 }

/-- A model of `f64` values retaining the IEEE special values: finite values
are exact rationals (rounding and overflow are elided, which does not affect
the special-value propagation analysed here), plus NaN and the two
infinities. -/
inductive FP where
  | fin : ℚ → FP
  | nan : FP
  | inf : FP
  | ninf : FP
  deriving DecidableEq, Repr

/-- IEEE negation on the model. -/
def FP.neg : FP → FP
  | fin q => fin (-q)
  | nan => nan
  | inf => ninf
  | ninf => inf

/-- IEEE addition on the model: NaN propagates, opposite infinities give
NaN, finite addition is exact. -/
def FP.add : FP → FP → FP
  | nan, _ => nan
  | fin a, fin b => fin (a + b)
  | fin _, inf => inf
  | fin _, ninf => ninf
  | fin _, nan => nan
  | inf, fin _ => inf
  | inf, inf => inf
  | inf, ninf => nan
  | inf, nan => nan
  | ninf, fin _ => ninf
  | ninf, inf => nan
  | ninf, ninf => ninf
  | ninf, nan => nan

/-- IEEE subtraction: `a - b = a + (-b)` holds exactly, special values
included. -/
def FP.sub (a b : FP) : FP := FP.add a (FP.neg b)

/-- IEEE multiplication on the model: NaN propagates, infinity times zero
gives NaN, signs follow the factors. -/
def FP.mul : FP → FP → FP
  | nan, _ => nan
  | fin a, fin b => fin (a * b)
  | fin a, inf => if a = 0 then nan else if 0 < a then inf else ninf
  | fin a, ninf => if a = 0 then nan else if 0 < a then ninf else inf
  | fin _, nan => nan
  | inf, fin b => if b = 0 then nan else if 0 < b then inf else ninf
  | inf, inf => inf
  | inf, ninf => ninf
  | inf, nan => nan
  | ninf, fin b => if b = 0 then nan else if 0 < b then ninf else inf
  | ninf, inf => ninf
  | ninf, ninf => inf
  | ninf, nan => nan

/-- IEEE division on the model: NaN propagates, zero over zero and infinity
over infinity give NaN, a nonzero finite value over zero gives a signed
infinity (the sign of zero is elided: division is by `+0`), a finite value
over an infinity gives zero. -/
def FP.div : FP → FP → FP
  | nan, _ => nan
  | fin a, fin b =>
    if b = 0 then (if a = 0 then nan else if 0 < a then inf else ninf)
    else fin (a / b)
  | fin _, inf => fin 0
  | fin _, ninf => fin 0
  | fin _, nan => nan
  | inf, fin b => if 0 ≤ b then inf else ninf
  | inf, inf => nan
  | inf, ninf => nan
  | inf, nan => nan
  | ninf, fin b => if 0 ≤ b then ninf else inf
  | ninf, inf => nan
  | ninf, ninf => nan
  | ninf, nan => nan

/-- Rust's `f64::max` on the model: if either operand is NaN the other is
returned, otherwise the larger value. -/
def FP.fmax : FP → FP → FP
  | nan, y => y
  | fin a, fin b => fin (max a b)
  | fin _, inf => inf
  | fin a, ninf => fin a
  | fin a, nan => fin a
  | inf, _ => inf
  | ninf, fin b => fin b
  | ninf, inf => inf
  | ninf, ninf => ninf
  | ninf, nan => ninf

/-- Summation `iter().sum::<f64>()`: fold of addition starting at `0.0`. -/
def FP.sumList (xs : List FP) : FP := xs.foldl FP.add (FP.fin 0)

/-- Squaring `powf(2.0)` modelled as self-multiplication (exact for finite values;
NaN propagates and both infinities square to `+inf`, as with `powf`). -/
def FP.sq (x : FP) : FP := FP.mul x x

/-- Variance `fn var` of `src/stl_result.rs` over the `f64` model, where the special
values are tracked: `sum(series)/len`, then `sum((v - mean)^2)/(len - 1)`. -/
def varFP (series : List FP) : FP :=
  let mean := FP.div (FP.sumList series) (FP.fin (series.length : ℚ))
  FP.div (FP.sumList (series.map (fun v => FP.sq (FP.sub v mean))))
    (FP.sub (FP.fin (series.length : ℚ)) (FP.fin 1))

/-- Strength `fn strength` of `src/stl_result.rs` over the `f64` model:
`(1.0 - var(remainder) / var(component + remainder)).max(0.0)` with Rust's
`f64::max` semantics. -/
def strengthFP (component remainder : List FP) : FP :=
  FP.fmax (FP.sub (FP.fin 1) (FP.div (varFP remainder)
    (varFP (List.zipWith FP.add component remainder)))) (FP.fin 0)

theorem getD_range_map {α : Type} (f : ℕ → α) (d : α) {N i : ℕ} (h : i < N) :
    ((List.range N).map f).getD i d = f i := by
  rw [List.getD_eq_getElem?_getD]
  simp [List.getElem?_range h]

theorem loessSmooth_length (y : List ℚ) (k : ℕ) (deg : ℤ) (jump : ℕ)
    (rw : Option (List ℚ)) (lo : ℤ) (cnt : ℕ) :
    (loessSmooth y k deg jump rw lo cnt).length = cnt := by
  unfold loessSmooth
  rw [List.length_map, List.length_range]

theorem stlInner_length (c : StlConfig) (Y : List ℚ) (rw : Option (List ℚ))
    (T : List ℚ) :
    (stlInner c Y rw T).1.length = Y.length ∧
      (stlInner c Y rw T).2.length = Y.length := by
  constructor
  · simp [stlInner]
  · simp [stlInner, loessSmooth_length]

theorem stlInnerN_length (c : StlConfig) (Y : List ℚ) (rw : Option (List ℚ)) :
    ∀ (n : ℕ) (st : List ℚ × List ℚ), st.1.length = Y.length →
      st.2.length = Y.length →
      (stlInnerN c Y rw n st).1.length = Y.length ∧
        (stlInnerN c Y rw n st).2.length = Y.length := by
  intro n
  induction n with
  | zero => intro st h1 h2; exact ⟨h1, h2⟩
  | succ n ih =>
    intro st h1 h2
    exact ih _ (stlInner_length c Y rw st.2).1 (stlInner_length c Y rw st.2).2

theorem robustnessWeights_length (R : List ℚ) :
    (robustnessWeights R).length = R.length := by
  simp [robustnessWeights]

theorem robustnessWeights_mem (R : List ℚ) :
    ∀ x ∈ robustnessWeights R, 0 ≤ x ∧ x ≤ 1 := by
  intro x hx
  obtain ⟨r, _, rfl⟩ := List.mem_map.1 hx
  unfold bisquareWeight
  split
  · exact ⟨le_refl 0, zero_le_one⟩
  · exact ⟨le_min zero_le_one (le_max_left 0 _), min_le_left _ _⟩

theorem stlOuter_facts (c : StlConfig) (Y : List ℚ) :
    ∀ (k : ℕ) (w : Option (List ℚ)) (st : List ℚ × List ℚ),
      st.1.length = Y.length → st.2.length = Y.length →
      (stlOuter c Y k w st).1.length = Y.length ∧
        (stlOuter c Y k w st).2.1.length = Y.length ∧
        ((stlOuter c Y k w st).2.2 = w ∨
          ∃ R : List ℚ, R.length = Y.length ∧
            (stlOuter c Y k w st).2.2 = some (robustnessWeights R)) := by
  intro k
  induction k with
  | zero =>
    intro w st h1 h2
    have h := stlInnerN_length c Y w c.inner st h1 h2
    exact ⟨h.1, h.2, Or.inl rfl⟩
  | succ k ih =>
    intro w st h1 h2
    have h := stlInnerN_length c Y w c.inner st h1 h2
    have hR : ((List.range Y.length).map
        (fun i => Y.getD i 0 - (stlInnerN c Y w c.inner st).1.getD i 0 -
          (stlInnerN c Y w c.inner st).2.getD i 0)).length = Y.length := by simp
    obtain ⟨g1, g2, g3⟩ := ih (some (robustnessWeights _)) (stlInnerN c Y w c.inner st) h.1 h.2
    refine ⟨g1, g2, Or.inr ?_⟩
    rcases g3 with g3 | ⟨R, hRlen, hRw⟩
    · exact ⟨_, hR, g3⟩
    · exact ⟨R, hRlen, hRw⟩

theorem stlCore_lengths (c : StlConfig) (Y : List ℚ) :
    (stlCore c Y).seasonal.length = Y.length ∧
      (stlCore c Y).trend.length = Y.length ∧
      (stlCore c Y).remainder.length = Y.length ∧
      (stlCore c Y).weights.length = Y.length := by
  unfold stlCore
  have hz : (List.replicate Y.length (0 : ℚ)).length = Y.length := by simp
  split
  · obtain ⟨g1, g2, g3⟩ := stlOuter_facts c Y c.outer none (_, _) hz hz
    refine ⟨g1, g2, by simp, ?_⟩
    rcases g3 with g3 | ⟨R, hRlen, hRw⟩
    · simp [g3]
    · simp [hRw, robustnessWeights_length, hRlen]
  · have h := stlInnerN_length c Y none c.inner (_, _) hz hz
    exact ⟨h.1, h.2, by simp, by simp⟩

theorem stlCore_additive (c : StlConfig) (Y : List ℚ) :
    ∀ i < Y.length,
      (stlCore c Y).seasonal.getD i 0 + (stlCore c Y).trend.getD i 0 +
        (stlCore c Y).remainder.getD i 0 = Y.getD i 0 := by
  intro i hi
  unfold stlCore
  split
  · rw [getD_range_map _ _ hi]; ring
  · rw [getD_range_map _ _ hi]; ring

theorem stlCore_weights_mem (c : StlConfig) (Y : List ℚ) :
    ∀ x ∈ (stlCore c Y).weights, 0 ≤ x ∧ x ≤ 1 := by
  unfold stlCore
  have hz : (List.replicate Y.length (0 : ℚ)).length = Y.length := by simp
  split
  · obtain ⟨-, -, g3⟩ := stlOuter_facts c Y c.outer none (_, _) hz hz
    rcases g3 with g3 | ⟨R, -, hRw⟩
    · simp only [g3]
      intro x hx
      rw [List.eq_of_mem_replicate hx]
      exact ⟨zero_le_one, le_refl 1⟩
    · simp only [hRw]
      exact robustnessWeights_mem R
  · intro x hx
    rw [List.eq_of_mem_replicate hx]
    exact ⟨zero_le_one, le_refl 1⟩

theorem stlCore_weights_nonrobust (c : StlConfig) (Y : List ℚ)
    (h : c.robust = false) :
    (stlCore c Y).weights = List.replicate Y.length 1 := by
  unfold stlCore
  rw [h]
  simp

theorem StlParams.fit_of_validate (prm : StlParams) (series : List ℚ) (period : ℕ)
    (h : prm.validate series.length period = none) :
    prm.fit series period = .ok (stlCore (prm.resolve period) series) := by
  unfold StlParams.fit
  rw [h]

theorem StlParams.fit_of_validate_error (prm : StlParams) (series : List ℚ)
    (period : ℕ) (e : Error) (h : prm.validate series.length period = some e) :
    prm.fit series period = .error e := by
  unfold StlParams.fit
  rw [h]

theorem StlParams.fit_ok_inv (prm : StlParams) (series : List ℚ) (period : ℕ)
    (r : StlResult) (h : prm.fit series period = .ok r) :
    prm.validate series.length period = none ∧
      r = stlCore (prm.resolve period) series := by
  unfold StlParams.fit at h
  cases hv : prm.validate series.length period with
  | some e => rw [hv] at h; simp at h
  | none =>
    rw [hv] at h
    simp only [Except.ok.injEq] at h
    exact ⟨rfl, h.symm⟩

theorem var_eq_sampleVariance (xs : List ℚ) : var xs = sampleVariance xs := rfl

theorem zipWith_add_eq_range_map (c r : List ℚ) (h : c.length = r.length) :
    List.zipWith (· + ·) c r
      = (List.range r.length).map (fun i => c.getD i 0 + r.getD i 0) := by
  induction c generalizing r with
  | nil =>
    cases r with
    | nil => simp
    | cons y ys => simp at h
  | cons x xs ih =>
    cases r with
    | nil => simp at h
    | cons y ys =>
      simp only [List.length_cons, List.range_succ_eq_map, List.map_cons,
        List.map_map, List.zipWith_cons_cons]
      refine List.cons_eq_cons.2 ⟨by simp, ?_⟩
      rw [ih ys (by simpa using h)]
      apply List.map_congr_left
      intro i _
      simp

theorem strength_eq_strengthSpec (c r : List ℚ) (h : c.length = r.length) :
    strength c r = strengthSpec c r := by
  unfold strength strengthSpec
  rw [zipWith_add_eq_range_map c r h, var_eq_sampleVariance, max_comm,
    var_eq_sampleVariance]

theorem sum_sq_nonneg (xs : List ℚ) (m : ℚ) :
    0 ≤ (xs.map (fun v => (v - m) ^ 2)).sum := by
  apply List.sum_nonneg
  intro x hx
  obtain ⟨v, _, rfl⟩ := List.mem_map.1 hx
  positivity

theorem var_nonneg (xs : List ℚ) : 0 ≤ var xs := by
  unfold var
  cases xs with
  | nil => simp
  | cons x t =>
    apply div_nonneg (sum_sq_nonneg _ _)
    have : (1 : ℚ) ≤ ((x :: t).length : ℚ) := by
      exact_mod_cast Nat.succ_le_of_lt (List.length_pos.2 (by simp))
    linarith

theorem strength_nonneg (c r : List ℚ) : 0 ≤ strength c r :=
  le_max_right _ _

theorem strength_le_one (c r : List ℚ) : strength c r ≤ 1 := by
  unfold strength
  apply max_le _ (by norm_num)
  have h := div_nonneg (var_nonneg r) (var_nonneg (List.zipWith (· + ·) c r))
  linarith

theorem MstlParams.fitWith_of_validate_error (f : ℚ → ℚ) (prm : MstlParams)
    (series : List ℚ) (periods : List ℕ) (e : Error)
    (h : prm.validate periods = some e) :
    MstlParams.fitWith f prm series periods = .error e := by
  unfold MstlParams.fitWith
  rw [h]

theorem MstlParams.fitWith_of_runSorted (f : ℚ → ℚ) (prm : MstlParams)
    (series : List ℚ) (periods : List ℕ) (comps : List (ℕ × List ℚ))
    (trend : List ℚ) (hv : prm.validate periods = none)
    (hr : runSorted prm.stl_params (mstlPairs periods) (mstlX f prm series)
      = .ok (comps, trend)) :
    MstlParams.fitWith f prm series periods
      = .ok (mstlAssemble (mstlX f prm series) periods.length series.length
          comps trend) := by
  unfold MstlParams.fitWith
  rw [hv, hr]

theorem MstlParams.fitWith_of_runSorted_error (f : ℚ → ℚ) (prm : MstlParams)
    (series : List ℚ) (periods : List ℕ) (e : Error)
    (hv : prm.validate periods = none)
    (hr : runSorted prm.stl_params (mstlPairs periods) (mstlX f prm series)
      = .error e) :
    MstlParams.fitWith f prm series periods = .error e := by
  unfold MstlParams.fitWith
  rw [hv, hr]

theorem MstlParams.fitWith_ok_inv (f : ℚ → ℚ) (prm : MstlParams)
    (series : List ℚ) (periods : List ℕ) (r : MstlResult)
    (h : MstlParams.fitWith f prm series periods = .ok r) :
    prm.validate periods = none ∧
      ∃ comps trend,
        runSorted prm.stl_params (mstlPairs periods) (mstlX f prm series)
          = .ok (comps, trend) ∧
        r = mstlAssemble (mstlX f prm series) periods.length series.length
          comps trend := by
  unfold MstlParams.fitWith at h
  cases hv : prm.validate periods with
  | some e => rw [hv] at h; simp at h
  | none =>
    rw [hv] at h
    cases hr : runSorted prm.stl_params (mstlPairs periods) (mstlX f prm series) with
    | error e => rw [hr] at h; simp at h
    | ok ct =>
      obtain ⟨c0, t0⟩ := ct
      rw [hr] at h
      simp only [Except.ok.injEq] at h
      exact ⟨rfl, c0, t0, hr.symm.trans hr, h.symm⟩

theorem nextOdd_pos (n : ℕ) : 1 ≤ nextOdd n := by
  unfold nextOdd
  split <;> omega

theorem StlParams.validate_ok_default (n period : ℕ) (h2 : 2 ≤ period)
    (hn : 2 * period ≤ n) : StlParams.validate {} n period = none := by
  have hno := nextOdd_pos period
  unfold StlParams.validate StlParams.resolve
  simp only [Option.getD_none]
  split_ifs <;> first | rfl | omega

/-- C1: for every series `Y` and period `p` for which `fit_stl` succeeds,
the four output sequences (seasonal, trend, remainder, weights) all have the
length of `Y`, and `seasonal[i] + trend[i] + remainder[i] = Y[i]` for every
index `i` (exactly, in the exact-arithmetic model, hence within any
tolerance). -/
theorem stl_fit_additive_identity (prm : StlParams) (Y : List ℚ) (p : ℕ)
    (r : StlResult) (h : prm.fit Y p = .ok r) :
    r.seasonal.length = Y.length ∧ r.trend.length = Y.length ∧
      r.remainder.length = Y.length ∧ r.weights.length = Y.length ∧
      ∀ i < Y.length,
        r.seasonal.getD i 0 + r.trend.getD i 0 + r.remainder.getD i 0
          = Y.getD i 0 := by
  obtain ⟨hv, rfl⟩ := StlParams.fit_ok_inv prm Y p r h
  obtain ⟨l1, l2, l3, l4⟩ := stlCore_lengths (prm.resolve p) Y
  exact ⟨l1, l2, l3, l4, stlCore_additive _ Y⟩

/-- Witness for C1: the repository's 30-point test series with period 7. -/
theorem stl_fit_additive_identity_witness :
    ∃ r, Stl.fit series30 7 = .ok r ∧
      (r.seasonal.length = series30.length ∧ r.trend.length = series30.length ∧
        r.remainder.length = series30.length ∧ r.weights.length = series30.length ∧
        ∀ i < series30.length,
          r.seasonal.getD i 0 + r.trend.getD i 0 + r.remainder.getD i 0
            = series30.getD i 0) := by
  have h : StlParams.fit {} series30 7
      = .ok (stlCore (StlParams.resolve {} 7) series30) :=
    StlParams.fit_of_validate {} series30 7
      (StlParams.validate_ok_default series30.length 7 (by omega)
        (by rw [show series30.length = 30 from rfl]; omega))
  exact ⟨_, h, stl_fit_additive_identity {} series30 7 _ h⟩

/-- C8: for every successful STL fit, every weight lies in `[0, 1]`, and a
fit whose robust flag is not set returns all weights equal to 1. -/
theorem stl_fit_weights_range (prm : StlParams) (Y : List ℚ) (p : ℕ)
    (r : StlResult) (h : prm.fit Y p = .ok r) :
    (∀ w ∈ r.weights, 0 ≤ w ∧ w ≤ 1) ∧
      (prm.robust = false → r.weights = List.replicate Y.length 1) := by
  obtain ⟨hv, rfl⟩ := StlParams.fit_ok_inv prm Y p r h
  exact ⟨stlCore_weights_mem _ _, fun hr => stlCore_weights_nonrobust _ _ hr⟩

/-- Witness for C8: the repository's 30-point test series with period 7 and
default (non-robust) parameters. -/
theorem stl_fit_weights_range_witness :
    ∃ r, Stl.fit series30 7 = .ok r ∧
      (∀ w ∈ r.weights, 0 ≤ w ∧ w ≤ 1) ∧
      r.weights = List.replicate series30.length 1 := by
  have h : StlParams.fit {} series30 7
      = .ok (stlCore (StlParams.resolve {} 7) series30) :=
    StlParams.fit_of_validate {} series30 7
      (StlParams.validate_ok_default series30.length 7 (by omega)
        (by rw [show series30.length = 30 from rfl]; omega))
  obtain ⟨h1, h2⟩ := stl_fit_weights_range {} series30 7 _ h
  exact ⟨_, h, h1, h2 rfl⟩

theorem MstlParams.validate_ok (prm : MstlParams) (periods : List ℕ)
    (hne : periods ≠ []) (h2 : ∀ p ∈ periods, 2 ≤ p)
    (hl : prm.lambda = none ∨ ∃ l, prm.lambda = some l ∧ 0 ≤ l ∧ l ≤ 1) :
    prm.validate periods = none := by
  unfold MstlParams.validate
  rw [if_neg, if_neg]
  · rcases hl with hl | ⟨l, hl, hl0, hl1⟩
    · rw [hl]
    · rw [hl]
      dsimp only
      rw [if_neg]
      rintro (h | h) <;> linarith
  · simp only [List.any_eq_true, decide_eq_true_eq, not_exists]
    rintro p ⟨hp, hlt⟩
    exact absurd (h2 p hp) (by omega)
  · simp only [List.isEmpty_iff]
    exact hne

theorem mstlAssemble_reconstruction (X : List ℚ) (k N : ℕ)
    (comps : List (ℕ × List ℚ)) (trend : List ℚ) :
    ∀ i < N,
      ((mstlAssemble X k N comps trend).seasonal.map (fun s => s.getD i 0)).sum
          + (mstlAssemble X k N comps trend).trend.getD i 0
          + (mstlAssemble X k N comps trend).remainder.getD i 0
        = X.getD i 0 := by
  intro i hi
  unfold mstlAssemble
  simp only
  rw [getD_range_map _ _ hi]
  ring

/-- C4: the strength metric equals
`max(0, 1 - Var(remainder) / Var(component + remainder))` with the sample
(N-1) variance, as the design document states it, for equal-length inputs;
and the result accessors (`StlResult::seasonal_strength`,
`StlResult::trend_strength`, `MstlResult::seasonal_strength`,
`MstlResult::trend_strength`) apply exactly this formula to the
corresponding component against the shared remainder. -/
theorem strength_formula (c r : List ℚ) (h : c.length = r.length) :
    strength c r = strengthSpec c r ∧
      (∀ res : StlResult,
        res.seasonal_strength = strength res.seasonal res.remainder ∧
          res.trend_strength = strength res.trend res.remainder) ∧
      (∀ m : MstlResult,
        m.seasonal_strength = m.seasonal.map (fun s => strength s m.remainder) ∧
          m.trend_strength = strength m.trend m.remainder) :=
  ⟨strength_eq_strengthSpec c r h, fun _ => ⟨rfl, rfl⟩, fun _ => ⟨rfl, rfl⟩⟩

/-- Witness for C4: a concrete equal-length pair. -/
theorem strength_formula_witness :
    ([1, 2] : List ℚ).length = ([3, 4] : List ℚ).length ∧
      strength [1, 2] [3, 4] = strengthSpec [1, 2] [3, 4] :=
  ⟨rfl, (strength_formula [1, 2] [3, 4] rfl).1⟩

/-- C5: every strength value lies in `[0, 1]`: it is clamped at zero by the
final `max`, and although no upper clamp is applied the value never exceeds
one (the variance ratio is nonnegative). -/
theorem strength_bounds :
    (∀ c r : List ℚ, 0 ≤ strength c r ∧ strength c r ≤ 1) ∧
      (∀ res : StlResult,
        (0 ≤ res.seasonal_strength ∧ res.seasonal_strength ≤ 1) ∧
          (0 ≤ res.trend_strength ∧ res.trend_strength ≤ 1)) ∧
      (∀ m : MstlResult,
        (∀ s ∈ m.seasonal_strength, 0 ≤ s ∧ s ≤ 1) ∧
          (0 ≤ m.trend_strength ∧ m.trend_strength ≤ 1)) := by
  refine ⟨fun c r => ⟨strength_nonneg c r, strength_le_one c r⟩,
    fun res => ⟨⟨strength_nonneg _ _, strength_le_one _ _⟩,
      strength_nonneg _ _, strength_le_one _ _⟩,
    fun m => ⟨?_, strength_nonneg _ _, strength_le_one _ _⟩⟩
  intro s hs
  obtain ⟨c, -, rfl⟩ := List.mem_map.1 hs
  exact ⟨strength_nonneg _ _, strength_le_one _ _⟩

/-- Witness for C5: concrete strength values lie in `[0, 1]`. -/
theorem strength_bounds_witness :
    (0 ≤ strength [1] [2] ∧ strength [1] [2] ≤ 1) ∧
      (0 ≤ StlResult.seasonal_strength ⟨[1], [1], [2], [1]⟩ ∧
        StlResult.seasonal_strength ⟨[1], [1], [2], [1]⟩ ≤ 1) := by
  refine ⟨strength_bounds.1 [1] [2], ?_⟩
  exact (strength_bounds.2.1 ⟨[1], [1], [2], [1]⟩).1

/-- C9: the fit operations and the derived strengths are deterministic:
identical inputs and parameters produce identical outputs. -/
theorem fit_deterministic :
    (∀ prm prm2 : StlParams, ∀ Y Y2 : List ℚ, ∀ p p2 : ℕ,
      prm = prm2 → Y = Y2 → p = p2 → prm.fit Y p = prm2.fit Y2 p2) ∧
      (∀ f f2 : ℚ → ℚ, ∀ prm prm2 : MstlParams, ∀ Y Y2 : List ℚ,
        ∀ ps ps2 : List ℕ, f = f2 → prm = prm2 → Y = Y2 → ps = ps2 →
          MstlParams.fitWith f prm Y ps = MstlParams.fitWith f2 prm2 Y2 ps2) ∧
      (∀ r r2 : StlResult, r = r2 →
        r.seasonal_strength = r2.seasonal_strength ∧
          r.trend_strength = r2.trend_strength ∧ r.weights = r2.weights) ∧
      (∀ m m2 : MstlResult, m = m2 →
        m.seasonal_strength = m2.seasonal_strength ∧
          m.trend_strength = m2.trend_strength) := by
  refine ⟨?_, ?_, ?_, ?_⟩ <;> (intros; subst_vars) <;>
    first
      | rfl
      | exact ⟨rfl, rfl⟩
      | exact ⟨rfl, rfl, rfl⟩

/-- Witness for C9: determinism at the repository's test inputs. -/
theorem fit_deterministic_witness :
    Stl.fit series30 7 = Stl.fit series30 7 ∧
      Mstl.fit series6 [2] = Mstl.fit series6 [2] :=
  ⟨fit_deterministic.1 {} {} series30 series30 7 7 rfl rfl rfl,
    fit_deterministic.2.1 id id {} {} series6 series6 [2] [2] rfl rfl rfl rfl⟩

/-- C2 (amended): for every series and non-empty period list for which
`fit_mstl` succeeds, the sum of all seasonal components plus trend plus
remainder at each index reconstructs the *working* series: the
power-transformed input when a lambda is configured, and the original input
otherwise.  (The claim as stated — reconstruction of the original even for
lambda fits — fails; see the counterexample.) -/
theorem mstl_fit_reconstructs_working (f : ℚ → ℚ) (prm : MstlParams)
    (Y : List ℚ) (periods : List ℕ) (r : MstlResult)
    (h : MstlParams.fitWith f prm Y periods = .ok r) :
    (∀ i < Y.length,
      (r.seasonal.map (fun s => s.getD i 0)).sum + r.trend.getD i 0 +
        r.remainder.getD i 0 = (mstlX f prm Y).getD i 0) ∧
      (prm.lambda = none → mstlX f prm Y = Y) := by
  obtain ⟨hv, comps, trend, hr, rfl⟩ :=
    MstlParams.fitWith_ok_inv f prm Y periods r h
  refine ⟨fun i hi => mstlAssemble_reconstruction _ _ _ _ _ i hi, fun hl => ?_⟩
  unfold mstlX
  rw [hl]

/-- Witness for C2 (amended): a lambda-free fit of the six-point series with
period 2 reconstructs the original series. -/
theorem mstl_fit_reconstructs_working_witness :
    ∃ r, Mstl.fit series6 [2] = .ok r ∧
      (∀ i < series6.length,
        (r.seasonal.map (fun s => s.getD i 0)).sum + r.trend.getD i 0 +
          r.remainder.getD i 0 = series6.getD i 0) := by
  have hv : ({} : MstlParams).validate [2] = none :=
    MstlParams.validate_ok {} [2] (by simp) (by norm_num) (Or.inl rfl)
  have hfit : StlParams.fit {} series6 2
      = .ok (stlCore (StlParams.resolve {} 2) series6) :=
    StlParams.fit_of_validate {} series6 2
      (StlParams.validate_ok_default series6.length 2 (by omega)
        (by rw [show series6.length = 6 from rfl]; omega))
  have hrun : runSorted ({} : StlParams) [(2, 0)] series6
      = .ok ([(0, (stlCore (StlParams.resolve {} 2) series6).seasonal)],
          (stlCore (StlParams.resolve {} 2) series6).trend) := by
    simp [runSorted, hfit]
  have hfw : MstlParams.fitWith id {} series6 [2]
      = .ok (mstlAssemble (mstlX id {} series6) ([2] : List ℕ).length
          series6.length
          [(0, (stlCore (StlParams.resolve {} 2) series6).seasonal)]
          (stlCore (StlParams.resolve {} 2) series6).trend) :=
    MstlParams.fitWith_of_runSorted id {} series6 [2] _ _ hv hrun
  have hmain := mstl_fit_reconstructs_working id {} series6 [2] _ hfw
  refine ⟨_, hfw, ?_⟩
  intro i hi
  rw [hmain.1 i hi, hmain.2 rfl]

/-- Counterexample for C2 as stated: with the power transform configured at
`λ = 1` (where the spec's Box-Cox formula is exactly `v ↦ (v^1 - 1)/1`),
the seasonal components, trend and remainder of a successful `fit_mstl` sum
to the transformed series, which differs from the original at index 0
(`boxcox(1) = 0 ≠ 1`). -/
theorem mstl_lambda_fit_breaks_original_identity :
    ∃ r, MstlParams.fitWith boxcoxAtOne mprmLam1 series6 [2] = .ok r ∧
      ¬ (∀ i < series6.length,
        (r.seasonal.map (fun s => s.getD i 0)).sum + r.trend.getD i 0 +
          r.remainder.getD i 0 = series6.getD i 0) := by
  have hv : mprmLam1.validate [2] = none :=
    MstlParams.validate_ok mprmLam1 [2] (by simp) (by norm_num)
      (Or.inr ⟨1, rfl, by norm_num, le_refl 1⟩)
  have hX : mstlX boxcoxAtOne mprmLam1 series6 = series6.map boxcoxAtOne := rfl
  have hlen : (series6.map boxcoxAtOne).length = 6 := by
    rw [List.length_map]
    rfl
  have hfit : StlParams.fit {} (series6.map boxcoxAtOne) 2
      = .ok (stlCore (StlParams.resolve {} 2) (series6.map boxcoxAtOne)) :=
    StlParams.fit_of_validate {} (series6.map boxcoxAtOne) 2
      (StlParams.validate_ok_default (series6.map boxcoxAtOne).length 2
        (by omega) (by rw [hlen]; omega))
  have hrun : runSorted ({} : StlParams) [(2, 0)] (series6.map boxcoxAtOne)
      = .ok ([(0, (stlCore (StlParams.resolve {} 2)
            (series6.map boxcoxAtOne)).seasonal)],
          (stlCore (StlParams.resolve {} 2) (series6.map boxcoxAtOne)).trend) := by
    simp [runSorted, hfit]
  have hfw : MstlParams.fitWith boxcoxAtOne mprmLam1 series6 [2]
      = .ok (mstlAssemble (mstlX boxcoxAtOne mprmLam1 series6)
          ([2] : List ℕ).length series6.length
          [(0, (stlCore (StlParams.resolve {} 2)
            (series6.map boxcoxAtOne)).seasonal)]
          (stlCore (StlParams.resolve {} 2) (series6.map boxcoxAtOne)).trend) := by
    refine MstlParams.fitWith_of_runSorted boxcoxAtOne mprmLam1 series6 [2] _ _ hv ?_
    rw [show mstlPairs [2] = [(2, 0)] from rfl, hX]
    exact hrun
  refine ⟨_, hfw, ?_⟩
  intro hall
  have h0 := hall 0 (by norm_num [series6])
  rw [mstlAssemble_reconstruction _ _ _ _ _ 0 (by norm_num [series6])] at h0
  rw [hX] at h0
  norm_num [series6, boxcoxAtOne] at h0

theorem stl_validate_err_period (prm : StlParams) (n p : ℕ) (hp : p < 2) :
    prm.validate n p = some (.parameter ("period must be at least 2")) := by
  unfold StlParams.validate
  split_ifs <;> first | rfl | (exfalso; omega)

theorem stl_validate_err_series (prm : StlParams) (n p : ℕ) (h2 : 2 ≤ p)
    (hn : n < 2 * p) :
    prm.validate n p = some (.series ("series has less than two periods")) := by
  unfold StlParams.validate
  split_ifs <;> first | rfl | (exfalso; omega)

theorem stl_validate_err_sdeg (d : ℤ) (n p : ℕ) (h2 : 2 ≤ p) (hn : 2 * p ≤ n)
    (hd : d ≠ 0 ∧ d ≠ 1) :
    StlParams.validate { seasonal_degree := d } n p
      = some (.parameter ("seasonal_degree must be 0 or 1")) := by
  unfold StlParams.validate StlParams.resolve
  simp only [Option.getD_none]
  split_ifs <;> first | rfl | (exfalso; omega)

theorem stl_validate_err_tdeg (d : ℤ) (n p : ℕ) (h2 : 2 ≤ p) (hn : 2 * p ≤ n)
    (hd : d ≠ 0 ∧ d ≠ 1) :
    StlParams.validate { trend_degree := d } n p
      = some (.parameter ("trend_degree must be 0 or 1")) := by
  unfold StlParams.validate StlParams.resolve
  simp only [Option.getD_none]
  split_ifs <;> first | rfl | (exfalso; omega)

theorem stl_validate_err_ldeg (d : ℤ) (n p : ℕ) (h2 : 2 ≤ p) (hn : 2 * p ≤ n)
    (hd : d ≠ 0 ∧ d ≠ 1) :
    StlParams.validate { low_pass_degree := d } n p
      = some (.parameter ("low_pass_degree must be 0 or 1")) := by
  unfold StlParams.validate StlParams.resolve
  simp only [Option.getD_none]
  split_ifs <;> first | rfl | (exfalso; omega)

theorem stl_validate_err_slen (n p : ℕ) (h2 : 2 ≤ p) (hn : 2 * p ≤ n) :
    StlParams.validate { seasonal_length := some 0 } n p
      = some (.parameter ("seasonal_length must be at least 1")) := by
  unfold StlParams.validate StlParams.resolve
  simp only [Option.getD_none, Option.getD_some]
  split_ifs <;> first | rfl | (exfalso; omega)

theorem stl_validate_err_tlen (n p : ℕ) (h2 : 2 ≤ p) (hn : 2 * p ≤ n) :
    StlParams.validate { trend_length := some 0 } n p
      = some (.parameter ("trend_length must be at least 1")) := by
  unfold StlParams.validate StlParams.resolve
  simp only [Option.getD_none, Option.getD_some]
  split_ifs <;> first | rfl | (exfalso; omega)

theorem stl_validate_err_llen (n p : ℕ) (h2 : 2 ≤ p) (hn : 2 * p ≤ n) :
    StlParams.validate { low_pass_length := some 0 } n p
      = some (.parameter ("low_pass_length must be at least 1")) := by
  unfold StlParams.validate StlParams.resolve
  simp only [Option.getD_none, Option.getD_some]
  split_ifs <;> first | rfl | (exfalso; omega)

theorem stl_validate_err_sjump (n p : ℕ) (h2 : 2 ≤ p) (hn : 2 * p ≤ n) :
    StlParams.validate { seasonal_jump := some 0 } n p
      = some (.parameter ("seasonal_jump must be at least 1")) := by
  have := nextOdd_pos p
  unfold StlParams.validate StlParams.resolve
  simp only [Option.getD_none, Option.getD_some]
  split_ifs <;> first | rfl | (exfalso; omega)

theorem stl_validate_err_tjump (n p : ℕ) (h2 : 2 ≤ p) (hn : 2 * p ≤ n) :
    StlParams.validate { trend_jump := some 0 } n p
      = some (.parameter ("trend_jump must be at least 1")) := by
  have := nextOdd_pos p
  unfold StlParams.validate StlParams.resolve
  simp only [Option.getD_none, Option.getD_some]
  split_ifs <;> first | rfl | (exfalso; omega)

theorem stl_validate_err_ljump (n p : ℕ) (h2 : 2 ≤ p) (hn : 2 * p ≤ n) :
    StlParams.validate { low_pass_jump := some 0 } n p
      = some (.parameter ("low_pass_jump must be at least 1")) := by
  have := nextOdd_pos p
  unfold StlParams.validate StlParams.resolve
  simp only [Option.getD_none, Option.getD_some]
  split_ifs <;> first | rfl | (exfalso; omega)

/-- C6: `fit_stl` validates before any computation and returns errors as
values: a series shorter than `2 * period` gives the series error
"series has less than two periods" (in particular the repository's 30-point
test series with period 16); a degree outside 0 and 1 gives the matching
parameter error (in particular `seasonal_degree(2)`); `period < 2` gives a
parameter error; and any length or jump below 1 gives a parameter error. -/
theorem stl_fit_validation_errors :
    (∀ (prm : StlParams) (Y : List ℚ) (p : ℕ), p < 2 →
      prm.fit Y p = .error (.parameter ("period must be at least 2"))) ∧
      (∀ (prm : StlParams) (Y : List ℚ) (p : ℕ), 2 ≤ p → Y.length < 2 * p →
        prm.fit Y p = .error (.series ("series has less than two periods"))) ∧
      Stl.fit series30 16 = .error (.series ("series has less than two periods")) ∧
      (∀ (d : ℤ) (Y : List ℚ) (p : ℕ), 2 ≤ p → 2 * p ≤ Y.length →
        d ≠ 0 ∧ d ≠ 1 →
        StlParams.fit { seasonal_degree := d } Y p
          = .error (.parameter ("seasonal_degree must be 0 or 1"))) ∧
      StlParams.fit { seasonal_degree := 2 } series30 7
        = .error (.parameter ("seasonal_degree must be 0 or 1")) ∧
      (∀ (d : ℤ) (Y : List ℚ) (p : ℕ), 2 ≤ p → 2 * p ≤ Y.length →
        d ≠ 0 ∧ d ≠ 1 →
        StlParams.fit { trend_degree := d } Y p
          = .error (.parameter ("trend_degree must be 0 or 1"))) ∧
      (∀ (d : ℤ) (Y : List ℚ) (p : ℕ), 2 ≤ p → 2 * p ≤ Y.length →
        d ≠ 0 ∧ d ≠ 1 →
        StlParams.fit { low_pass_degree := d } Y p
          = .error (.parameter ("low_pass_degree must be 0 or 1"))) ∧
      (∀ (Y : List ℚ) (p : ℕ), 2 ≤ p → 2 * p ≤ Y.length →
        StlParams.fit { seasonal_length := some 0 } Y p
          = .error (.parameter ("seasonal_length must be at least 1"))) ∧
      (∀ (Y : List ℚ) (p : ℕ), 2 ≤ p → 2 * p ≤ Y.length →
        StlParams.fit { trend_length := some 0 } Y p
          = .error (.parameter ("trend_length must be at least 1"))) ∧
      (∀ (Y : List ℚ) (p : ℕ), 2 ≤ p → 2 * p ≤ Y.length →
        StlParams.fit { low_pass_length := some 0 } Y p
          = .error (.parameter ("low_pass_length must be at least 1"))) ∧
      (∀ (Y : List ℚ) (p : ℕ), 2 ≤ p → 2 * p ≤ Y.length →
        StlParams.fit { seasonal_jump := some 0 } Y p
          = .error (.parameter ("seasonal_jump must be at least 1"))) ∧
      (∀ (Y : List ℚ) (p : ℕ), 2 ≤ p → 2 * p ≤ Y.length →
        StlParams.fit { trend_jump := some 0 } Y p
          = .error (.parameter ("trend_jump must be at least 1"))) ∧
      (∀ (Y : List ℚ) (p : ℕ), 2 ≤ p → 2 * p ≤ Y.length →
        StlParams.fit { low_pass_jump := some 0 } Y p
          = .error (.parameter ("low_pass_jump must be at least 1"))) := by
  refine ⟨fun prm Y p hp => StlParams.fit_of_validate_error _ _ _ _
      (stl_validate_err_period prm Y.length p hp),
    fun prm Y p h2 hn => StlParams.fit_of_validate_error _ _ _ _
      (stl_validate_err_series prm Y.length p h2 hn),
    StlParams.fit_of_validate_error _ _ _ _
      (stl_validate_err_series {} series30.length 16 (by omega)
        (by rw [show series30.length = 30 from rfl]; omega)),
    fun d Y p h2 hn hd => StlParams.fit_of_validate_error _ _ _ _
      (stl_validate_err_sdeg d Y.length p h2 hn hd),
    StlParams.fit_of_validate_error _ _ _ _
      (stl_validate_err_sdeg 2 series30.length 7 (by omega)
        (by rw [show series30.length = 30 from rfl]; omega) (by norm_num)),
    fun d Y p h2 hn hd => StlParams.fit_of_validate_error _ _ _ _
      (stl_validate_err_tdeg d Y.length p h2 hn hd),
    fun d Y p h2 hn hd => StlParams.fit_of_validate_error _ _ _ _
      (stl_validate_err_ldeg d Y.length p h2 hn hd),
    fun Y p h2 hn => StlParams.fit_of_validate_error _ _ _ _
      (stl_validate_err_slen Y.length p h2 hn),
    fun Y p h2 hn => StlParams.fit_of_validate_error _ _ _ _
      (stl_validate_err_tlen Y.length p h2 hn),
    fun Y p h2 hn => StlParams.fit_of_validate_error _ _ _ _
      (stl_validate_err_llen Y.length p h2 hn),
    fun Y p h2 hn => StlParams.fit_of_validate_error _ _ _ _
      (stl_validate_err_sjump Y.length p h2 hn),
    fun Y p h2 hn => StlParams.fit_of_validate_error _ _ _ _
      (stl_validate_err_tjump Y.length p h2 hn),
    fun Y p h2 hn => StlParams.fit_of_validate_error _ _ _ _
      (stl_validate_err_ljump Y.length p h2 hn)⟩

/-- Witness for C6: every validation rule instantiated on the repository's
30-point test series. -/
theorem stl_fit_validation_errors_witness :
    StlParams.fit {} series30 1
        = .error (.parameter ("period must be at least 2")) ∧
      StlParams.fit {} series30 16
        = .error (.series ("series has less than two periods")) ∧
      StlParams.fit { seasonal_degree := 2 } series30 7
        = .error (.parameter ("seasonal_degree must be 0 or 1")) ∧
      StlParams.fit { trend_degree := (-1) } series30 7
        = .error (.parameter ("trend_degree must be 0 or 1")) ∧
      StlParams.fit { low_pass_degree := 3 } series30 7
        = .error (.parameter ("low_pass_degree must be 0 or 1")) ∧
      StlParams.fit { seasonal_length := some 0 } series30 7
        = .error (.parameter ("seasonal_length must be at least 1")) ∧
      StlParams.fit { trend_length := some 0 } series30 7
        = .error (.parameter ("trend_length must be at least 1")) ∧
      StlParams.fit { low_pass_length := some 0 } series30 7
        = .error (.parameter ("low_pass_length must be at least 1")) ∧
      StlParams.fit { seasonal_jump := some 0 } series30 7
        = .error (.parameter ("seasonal_jump must be at least 1")) ∧
      StlParams.fit { trend_jump := some 0 } series30 7
        = .error (.parameter ("trend_jump must be at least 1")) ∧
      StlParams.fit { low_pass_jump := some 0 } series30 7
        = .error (.parameter ("low_pass_jump must be at least 1")) := by
  have h30 : series30.length = 30 := rfl
  obtain ⟨g1, g2, g3, g4, g5, g6, g7, g8, g9, g10, g11, g12, g13⟩ :=
    stl_fit_validation_errors
  exact ⟨g1 {} series30 1 (by omega),
    g2 {} series30 16 (by omega) (by rw [h30]; omega),
    g5,
    g6 (-1) series30 7 (by omega) (by rw [h30]; omega) (by norm_num),
    g7 3 series30 7 (by omega) (by rw [h30]; omega) (by norm_num),
    g8 series30 7 (by omega) (by rw [h30]; omega),
    g9 series30 7 (by omega) (by rw [h30]; omega),
    g10 series30 7 (by omega) (by rw [h30]; omega),
    g11 series30 7 (by omega) (by rw [h30]; omega),
    g12 series30 7 (by omega) (by rw [h30]; omega),
    g13 series30 7 (by omega) (by rw [h30]; omega)⟩

theorem mstlX_length (f : ℚ → ℚ) (prm : MstlParams) (Y : List ℚ) :
    (mstlX f prm Y).length = Y.length := by
  unfold mstlX
  cases prm.lambda <;> simp

theorem mstl_validate_err_empty (prm : MstlParams) :
    prm.validate [] = some (.parameter ("periods must not be empty")) := rfl

theorem mstl_validate_err_small (prm : MstlParams) (periods : List ℕ) (p : ℕ)
    (hp : p ∈ periods) (h2 : p < 2) :
    prm.validate periods = some (.parameter ("periods must be at least 2")) := by
  have hne : ¬(periods.isEmpty = true) := by
    simp only [List.isEmpty_iff]
    exact List.ne_nil_of_mem hp
  have hany : periods.any (fun q => q < 2) = true :=
    List.any_eq_true.2 ⟨p, hp, by simpa⟩
  unfold MstlParams.validate
  rw [if_neg hne, if_pos hany]

theorem mstl_validate_err_lambda (sp : StlParams) (l : ℚ) (periods : List ℕ)
    (hne : periods ≠ []) (h2 : ∀ p ∈ periods, 2 ≤ p) (hl : l < 0 ∨ 1 < l) :
    MstlParams.validate { stl_params := sp, lambda := some l } periods
      = some (.parameter ("lambda must be between 0 and 1")) := by
  have hne' : ¬(periods.isEmpty = true) := by
    simp only [List.isEmpty_iff]
    exact hne
  have hany : ¬(periods.any (fun q => q < 2) = true) := by
    simp only [List.any_eq_true, decide_eq_true_eq, not_exists]
    rintro p ⟨hp, hlt⟩
    exact absurd (h2 p hp) (by omega)
  unfold MstlParams.validate
  rw [if_neg hne', if_neg hany]
  dsimp only
  rw [if_pos hl]

theorem runSorted_err_head (prm : StlParams) (p i : ℕ) (rest : List (ℕ × ℕ))
    (resid : List ℚ) (e : Error) (h : prm.fit resid p = .error e) :
    runSorted prm ((p, i) :: rest) resid = .error e := by
  unfold runSorted
  rw [h]

theorem mstlPairs_length (periods : List ℕ) :
    (mstlPairs periods).length = periods.length := by
  unfold mstlPairs
  rw [List.length_insertionSort, List.length_zip, List.length_range,
    min_self]

theorem mstlPairs_fst_mem (periods : List ℕ) (q : ℕ × ℕ)
    (hq : q ∈ mstlPairs periods) : q.1 ∈ periods := by
  have hz : q ∈ periods.zip (List.range periods.length) :=
    (List.perm_insertionSort _ _).subset hq
  exact (List.of_mem_zip hz).1

theorem mstlPairs_exists_fst (periods : List ℕ) (p : ℕ) (hp : p ∈ periods) :
    ∃ i, (p, i) ∈ mstlPairs periods := by
  obtain ⟨j, hj, hpe⟩ := List.getElem_of_mem hp
  refine ⟨j, ?_⟩
  have hlen : j < (periods.zip (List.range periods.length)).length := by
    rw [List.length_zip, List.length_range, min_self]
    exact hj
  have hg : (periods.zip (List.range periods.length))[j] = (periods[j], j) := by
    rw [List.getElem_zip]
    simp
  have hzmem : (p, j) ∈ periods.zip (List.range periods.length) := by
    rw [← hpe, ← hg]
    exact List.getElem_mem hlen
  exact ((List.perm_insertionSort _ _).mem_iff).2 hzmem

theorem runSorted_series_err (prm : StlParams) (N : ℕ)
    (hprm : ∀ m : ℕ, 2 ≤ m → 2 * m ≤ N → prm.validate N m = none) :
    ∀ (pairs : List (ℕ × ℕ)) (resid : List ℚ), resid.length = N →
      (∀ q ∈ pairs, 2 ≤ q.1) →
      (∃ q ∈ pairs, N < 2 * q.1) →
      runSorted prm pairs resid
        = .error (.series ("series has less than two periods")) := by
  intro pairs
  induction pairs with
  | nil =>
    intro resid _ _ hex
    obtain ⟨q, hq, _⟩ := hex
    simp at hq
  | cons a rest ih =>
    obtain ⟨p, i⟩ := a
    intro resid hres h2 hex
    by_cases hover : N < 2 * p
    · apply runSorted_err_head
      apply StlParams.fit_of_validate_error
      rw [hres]
      exact stl_validate_err_series prm N p (h2 (p, i) (List.mem_cons_self _ _))
        hover
    · push_neg at hover
      have hfit : prm.fit resid p = .ok (stlCore (prm.resolve p) resid) := by
        apply StlParams.fit_of_validate
        rw [hres]
        exact hprm p (h2 (p, i) (List.mem_cons_self _ _)) hover
      have hres' : (List.zipWith (· - ·) resid
          (stlCore (prm.resolve p) resid).seasonal).length = N := by
        rw [List.length_zipWith, (stlCore_lengths (prm.resolve p) resid).1,
          hres, min_self]
      have hex' : ∃ q ∈ rest, N < 2 * q.1 := by
        obtain ⟨q, hq, hqo⟩ := hex
        rcases List.mem_cons.1 hq with rfl | hq2
        · exact absurd hqo (by omega)
        · exact ⟨q, hq2, hqo⟩
      have hrec := ih _ hres' (fun q hq => h2 q (List.mem_cons_of_mem _ hq)) hex'
      simp [runSorted, hfit, hrec]

/-- C7: `fit_mstl` validation: an empty period list gives the parameter
error "periods must not be empty"; any period below 2 gives "periods must
be at least 2"; a lambda outside `[0, 1]` gives "lambda must be between 0
and 1"; and a period demanding more observations than the series has gives
the same series error as a standalone STL fit with that period.  The last
behaviour is shown concretely on the repository's 30-point series with
period 16, generally when every period is too large for the series, and
generally for mixed period lists: when the other validation passes and the
STL parameters are valid for any adequate period, a single oversized period
anywhere in the list makes the whole fit return the propagated series error
of its failing sub-fit — earlier (smaller) sub-fits succeed and the first
oversized one fails, since the working residual keeps the series length. -/
theorem mstl_fit_validation_errors :
    (∀ (f : ℚ → ℚ) (prm : MstlParams) (Y : List ℚ),
      MstlParams.fitWith f prm Y []
        = .error (.parameter ("periods must not be empty"))) ∧
      (∀ (f : ℚ → ℚ) (prm : MstlParams) (Y : List ℚ) (periods : List ℕ)
        (p : ℕ), p ∈ periods → p < 2 →
        MstlParams.fitWith f prm Y periods
          = .error (.parameter ("periods must be at least 2"))) ∧
      (∀ (f : ℚ → ℚ) (sp : StlParams) (l : ℚ) (Y : List ℚ)
        (periods : List ℕ), periods ≠ [] → (∀ p ∈ periods, 2 ≤ p) →
        l < 0 ∨ 1 < l →
        MstlParams.fitWith f { stl_params := sp, lambda := some l } Y periods
          = .error (.parameter ("lambda must be between 0 and 1"))) ∧
      Mstl.fit series30 [16]
        = .error (.series ("series has less than two periods")) ∧
      (∀ (f : ℚ → ℚ) (prm : MstlParams) (Y : List ℚ) (periods : List ℕ),
        periods ≠ [] → (∀ p ∈ periods, 2 ≤ p) →
        (prm.lambda = none ∨ ∃ l, prm.lambda = some l ∧ 0 ≤ l ∧ l ≤ 1) →
        (∀ p ∈ periods, Y.length < 2 * p) →
        MstlParams.fitWith f prm Y periods
            = .error (.series ("series has less than two periods")) ∧
          ∀ p ∈ periods, prm.stl_params.fit Y p
            = .error (.series ("series has less than two periods"))) ∧
      (∀ (f : ℚ → ℚ) (prm : MstlParams) (Y : List ℚ) (periods : List ℕ),
        (∀ p ∈ periods, 2 ≤ p) →
        (prm.lambda = none ∨ ∃ l, prm.lambda = some l ∧ 0 ≤ l ∧ l ≤ 1) →
        (∀ m : ℕ, 2 ≤ m → 2 * m ≤ Y.length →
          prm.stl_params.validate Y.length m = none) →
        (∃ p ∈ periods, Y.length < 2 * p) →
        MstlParams.fitWith f prm Y periods
            = .error (.series ("series has less than two periods")) ∧
          ∀ p ∈ periods, Y.length < 2 * p → prm.stl_params.fit Y p
            = .error (.series ("series has less than two periods"))) := by
  refine ⟨?_, ?_, ?_, ?_, ?_, ?_⟩
  · intro f prm Y
    exact MstlParams.fitWith_of_validate_error f prm Y [] _
      (mstl_validate_err_empty prm)
  · intro f prm Y periods p hp h2
    exact MstlParams.fitWith_of_validate_error f prm Y periods _
      (mstl_validate_err_small prm periods p hp h2)
  · intro f sp l Y periods hne h2 hl
    exact MstlParams.fitWith_of_validate_error f _ Y periods _
      (mstl_validate_err_lambda sp l periods hne h2 hl)
  · have hv : ({} : MstlParams).validate [16] = none :=
      MstlParams.validate_ok {} [16] (by simp) (by norm_num) (Or.inl rfl)
    apply MstlParams.fitWith_of_runSorted_error id {} series30 [16] _ hv
    rw [show mstlPairs [16] = [(16, 0)] from rfl]
    apply runSorted_err_head
    exact StlParams.fit_of_validate_error _ _ _ _
      (stl_validate_err_series {} _ 16 (by omega)
        (by rw [mstlX_length, show series30.length = 30 from rfl]; omega))
  · intro f prm Y periods hne h2 hl hshort
    have hv := MstlParams.validate_ok prm periods hne h2 hl
    have hstand : ∀ p ∈ periods, prm.stl_params.fit Y p
        = .error (.series ("series has less than two periods")) := by
      intro p hp
      exact StlParams.fit_of_validate_error _ _ _ _
        (stl_validate_err_series prm.stl_params Y.length p (h2 p hp)
          (hshort p hp))
    refine ⟨?_, hstand⟩
    have hlen := mstlPairs_length periods
    cases hpq : mstlPairs periods with
    | nil =>
      rw [hpq] at hlen
      cases periods with
      | nil => exact absurd rfl hne
      | cons a t => simp at hlen
    | cons q t =>
      obtain ⟨qp, qi⟩ := q
      have hq1 : qp ∈ periods := by
        have hmem : (qp, qi) ∈ mstlPairs periods := by
          rw [hpq]
          exact List.mem_cons_self _ _
        exact mstlPairs_fst_mem periods (qp, qi) hmem
      apply MstlParams.fitWith_of_runSorted_error f prm Y periods _ hv
      rw [hpq]
      apply runSorted_err_head
      exact StlParams.fit_of_validate_error _ _ _ _
        (stl_validate_err_series prm.stl_params _ qp (h2 qp hq1)
          (by rw [mstlX_length]; exact hshort qp hq1))
  · intro f prm Y periods h2 hl hprm hex
    obtain ⟨p0, hp0, hp0o⟩ := hex
    have hne : periods ≠ [] := List.ne_nil_of_mem hp0
    have hv := MstlParams.validate_ok prm periods hne h2 hl
    constructor
    · apply MstlParams.fitWith_of_runSorted_error f prm Y periods _ hv
      apply runSorted_series_err prm.stl_params Y.length hprm _ _
        (mstlX_length f prm Y)
      · intro q hq
        exact h2 q.1 (mstlPairs_fst_mem periods q hq)
      · obtain ⟨i, hi⟩ := mstlPairs_exists_fst periods p0 hp0
        exact ⟨(p0, i), hi, hp0o⟩
    · intro p hp hpo
      exact StlParams.fit_of_validate_error _ _ _ _
        (stl_validate_err_series prm.stl_params Y.length p (h2 p hp) hpo)

theorem range_two : List.range 2 = [0, 1] := rfl

theorem mstlPairs_pair_lt (a b : ℕ) (hab : a < b) :
    mstlPairs [a, b] = [(a, 0), (b, 1)] ∧ mstlPairs [b, a] = [(a, 1), (b, 0)] := by
  unfold mstlPairs
  constructor
  · rw [show ([a, b] : List ℕ).length = 2 from rfl, range_two]
    simp only [List.zip_cons_cons, List.zip_nil_right,
      List.insertionSort, List.orderedInsert]
    rw [if_pos]
    exact hab.le
  · rw [show ([b, a] : List ℕ).length = 2 from rfl, range_two]
    simp only [List.zip_cons_cons, List.zip_nil_right,
      List.insertionSort, List.orderedInsert]
    rw [if_neg]
    exact hab.not_le

theorem runSorted_pair (sp : StlParams) (pa pb ia ib : ℕ) (X : List ℚ)
    (ra rb : StlResult) (hfa : sp.fit X pa = .ok ra)
    (hfb : sp.fit (List.zipWith (· - ·) X ra.seasonal) pb = .ok rb) :
    runSorted sp [(pa, ia), (pb, ib)] X
      = .ok ([(ia, ra.seasonal), (ib, rb.seasonal)], rb.trend) := by
  simp [runSorted, hfa, hfb]

theorem runSorted_pair_err2 (sp : StlParams) (pa pb ia ib : ℕ) (X : List ℚ)
    (ra : StlResult) (e : Error) (hfa : sp.fit X pa = .ok ra)
    (hfb : sp.fit (List.zipWith (· - ·) X ra.seasonal) pb = .error e) :
    runSorted sp [(pa, ia), (pb, ib)] X = .error e := by
  simp [runSorted, hfa, hfb]

theorem mstl_pair_sorted_aux (f : ℚ → ℚ) (prm : MstlParams) (Y : List ℚ)
    (a b : ℕ) (hab : a < b) (r1 r2 : MstlResult)
    (h1 : MstlParams.fitWith f prm Y [a, b] = .ok r1)
    (h2 : MstlParams.fitWith f prm Y [b, a] = .ok r2) :
    r2.seasonal = r1.seasonal.reverse ∧ r2.trend = r1.trend ∧
      r2.remainder = r1.remainder := by
  obtain ⟨hp1, hp2⟩ := mstlPairs_pair_lt a b hab
  obtain ⟨hv1, c1, t1, hr1, hq1⟩ := MstlParams.fitWith_ok_inv f prm Y [a, b] r1 h1
  obtain ⟨hv2, c2, t2, hr2, hq2⟩ := MstlParams.fitWith_ok_inv f prm Y [b, a] r2 h2
  rw [hp1] at hr1
  rw [hp2] at hr2
  cases hfa : prm.stl_params.fit (mstlX f prm Y) a with
  | error e =>
    rw [runSorted_err_head _ _ _ _ _ _ hfa] at hr1
    simp at hr1
  | ok ra =>
    cases hfb : prm.stl_params.fit
        (List.zipWith (· - ·) (mstlX f prm Y) ra.seasonal) b with
    | error e =>
      rw [runSorted_pair_err2 _ _ _ _ _ _ _ _ hfa hfb] at hr1
      simp at hr1
    | ok rb =>
      rw [runSorted_pair _ _ _ _ _ _ _ _ hfa hfb] at hr1
      rw [runSorted_pair _ _ _ _ _ _ _ _ hfa hfb] at hr2
      simp only [Except.ok.injEq, Prod.mk.injEq] at hr1 hr2
      obtain ⟨hc1, ht1⟩ := hr1
      obtain ⟨hc2, ht2⟩ := hr2
      subst hc1 ht1 hc2 ht2 hq1 hq2
      refine ⟨?_, rfl, ?_⟩
      · simp [mstlAssemble, range_two, List.lookup]
      · unfold mstlAssemble
        simp only
        apply List.map_congr_left
        intro i _
        simp [range_two, List.lookup]
        ring

/-- C3: period-order invariance of `fit_mstl`: for distinct periods `a` and
`b`, fitting with `[a, b]` and with `[b, a]` produces the same per-period
seasonal components — exposed in the caller's original period order, so the
two seasonal lists are each other's reversal — and identical trend and
remainder sequences. -/
theorem mstl_period_order_invariance (f : ℚ → ℚ) (prm : MstlParams)
    (Y : List ℚ) (a b : ℕ) (r1 r2 : MstlResult) (hab : a ≠ b)
    (h1 : MstlParams.fitWith f prm Y [a, b] = .ok r1)
    (h2 : MstlParams.fitWith f prm Y [b, a] = .ok r2) :
    r2.seasonal = r1.seasonal.reverse ∧ r2.trend = r1.trend ∧
      r2.remainder = r1.remainder := by
  rcases lt_trichotomy a b with h | h | h
  · exact mstl_pair_sorted_aux f prm Y a b h r1 r2 h1 h2
  · exact absurd h hab
  · obtain ⟨e1, e2, e3⟩ := mstl_pair_sorted_aux f prm Y b a h r2 r1 h2 h1
    refine ⟨?_, e2.symm, e3.symm⟩
    rw [e1, List.reverse_reverse]

/-- Witness for C3: the six-point series with periods 2 and 3 in both
orders. -/
theorem mstl_period_order_invariance_witness :
    ∃ r1 r2, Mstl.fit series6 [2, 3] = .ok r1 ∧
      Mstl.fit series6 [3, 2] = .ok r2 ∧
      r2.seasonal = r1.seasonal.reverse ∧ r2.trend = r1.trend ∧
      r2.remainder = r1.remainder := by
  have h6 : series6.length = 6 := rfl
  have hv23 : ({} : MstlParams).validate [2, 3] = none :=
    MstlParams.validate_ok {} [2, 3] (by simp) (by norm_num) (Or.inl rfl)
  have hv32 : ({} : MstlParams).validate [3, 2] = none :=
    MstlParams.validate_ok {} [3, 2] (by simp) (by norm_num) (Or.inl rfl)
  have hf1 : StlParams.fit {} series6 2
      = .ok (stlCore (StlParams.resolve {} 2) series6) :=
    StlParams.fit_of_validate {} series6 2
      (StlParams.validate_ok_default series6.length 2 (by omega)
        (by rw [h6]; omega))
  have hlen1 : (List.zipWith (· - ·) series6
      (stlCore (StlParams.resolve {} 2) series6).seasonal).length = 6 := by
    rw [List.length_zipWith, (stlCore_lengths (StlParams.resolve {} 2) series6).1,
      h6, min_self]
  have hf2 : StlParams.fit {} (List.zipWith (· - ·) series6
        (stlCore (StlParams.resolve {} 2) series6).seasonal) 3
      = .ok (stlCore (StlParams.resolve {} 3) (List.zipWith (· - ·) series6
          (stlCore (StlParams.resolve {} 2) series6).seasonal)) :=
    StlParams.fit_of_validate {} _ 3
      (StlParams.validate_ok_default _ 3 (by omega) (by rw [hlen1]))
  have hrunA := runSorted_pair {} 2 3 0 1 series6 _ _ hf1 hf2
  have hrunB := runSorted_pair {} 2 3 1 0 series6 _ _ hf1 hf2
  have hfwA := MstlParams.fitWith_of_runSorted id {} series6 [2, 3] _ _ hv23
    (by rw [(mstlPairs_pair_lt 2 3 (by omega)).1]; exact hrunA)
  have hfwB := MstlParams.fitWith_of_runSorted id {} series6 [3, 2] _ _ hv32
    (by rw [(mstlPairs_pair_lt 2 3 (by omega)).2]; exact hrunB)
  obtain ⟨e1, e2, e3⟩ := mstl_period_order_invariance id {} series6 2 3 _ _
    (by omega) hfwA hfwB
  exact ⟨_, _, hfwA, hfwB, e1, e2, e3⟩

theorem FP.foldl_add_fin (xs : List FP) :
    ∀ a : ℚ, (∀ x ∈ xs, ∃ q, x = FP.fin q) →
      ∃ s, xs.foldl FP.add (FP.fin a) = FP.fin s := by
  induction xs with
  | nil => intro a _; exact ⟨a, rfl⟩
  | cons x t ih =>
    intro a h
    obtain ⟨q, rfl⟩ := h x (List.mem_cons_self x t)
    obtain ⟨s, hs⟩ := ih (a + q) (fun y hy => h y (List.mem_cons_of_mem _ hy))
    exact ⟨s, by simpa [FP.add] using hs⟩

theorem FP.foldl_add_fin_nonneg (xs : List FP) :
    ∀ a : ℚ, 0 ≤ a → (∀ x ∈ xs, ∃ q, 0 ≤ q ∧ x = FP.fin q) →
      ∃ s, 0 ≤ s ∧ xs.foldl FP.add (FP.fin a) = FP.fin s := by
  induction xs with
  | nil => intro a ha _; exact ⟨a, ha, rfl⟩
  | cons x t ih =>
    intro a ha h
    obtain ⟨q, hq0, rfl⟩ := h x (List.mem_cons_self x t)
    obtain ⟨s, hs0, hs⟩ := ih (a + q) (by linarith)
      (fun y hy => h y (List.mem_cons_of_mem _ hy))
    exact ⟨s, hs0, by simpa [FP.add] using hs⟩

theorem zipWith_add_finite (c : List FP) :
    ∀ r : List FP, (∀ x ∈ c, ∃ q, x = FP.fin q) →
      (∀ x ∈ r, ∃ q, x = FP.fin q) →
      ∀ x ∈ List.zipWith FP.add c r, ∃ q, x = FP.fin q := by
  induction c with
  | nil => intro r _ _ x hx; simp at hx
  | cons x t ih =>
    intro r hc hr z hz
    cases r with
    | nil => simp at hz
    | cons y u =>
      simp only [List.zipWith_cons_cons, List.mem_cons] at hz
      rcases hz with rfl | hz
      · obtain ⟨qx, rfl⟩ := hc x (List.mem_cons_self _ _)
        obtain ⟨qy, rfl⟩ := hr y (List.mem_cons_self _ _)
        exact ⟨qx + qy, by simp [FP.add]⟩
      · exact ih u (fun w hw => hc w (List.mem_cons_of_mem _ hw))
          (fun w hw => hr w (List.mem_cons_of_mem _ hw)) z hz

theorem varFP_eq (xs : List FP) :
    varFP xs = FP.div (FP.sumList (xs.map (fun v => FP.sq (FP.sub v
        (FP.div (FP.sumList xs) (FP.fin (xs.length : ℚ)))))))
      (FP.sub (FP.fin (xs.length : ℚ)) (FP.fin 1)) := rfl

theorem varFP_of_finite (xs : List FP) (h : ∀ x ∈ xs, ∃ q, x = FP.fin q) :
    varFP xs = FP.nan ∨ ∃ a : ℚ, 0 ≤ a ∧ varFP xs = FP.fin a := by
  match xs, h with
  | [], _ =>
    right
    refine ⟨0, le_refl 0, ?_⟩
    norm_num [varFP_eq, FP.sumList, FP.div, FP.sub, FP.add, FP.neg]
  | [x], h =>
    obtain ⟨q, rfl⟩ := h x (List.mem_cons_self _ _)
    left
    norm_num [varFP_eq, FP.sumList, FP.div, FP.sub, FP.add, FP.neg, FP.sq,
      FP.mul]
  | x :: y :: t, h =>
    right
    obtain ⟨s, hs⟩ := FP.foldl_add_fin (x :: y :: t) 0 h
    have hsum : FP.sumList (x :: y :: t) = FP.fin s := hs
    have hnlen : (2 : ℚ) ≤ ((x :: y :: t).length : ℚ) := by
      have : 2 ≤ (x :: y :: t).length := by simp
      exact_mod_cast this
    have hn : ((x :: y :: t).length : ℚ) ≠ 0 := by linarith
    have hmean : FP.div (FP.sumList (x :: y :: t))
        (FP.fin ((x :: y :: t).length : ℚ))
        = FP.fin (s / ((x :: y :: t).length : ℚ)) := by
      rw [hsum]
      simp only [FP.div]
      rw [if_neg hn]
    have hmap : ∀ z ∈ (x :: y :: t).map (fun v => FP.sq (FP.sub v
        (FP.fin (s / ((x :: y :: t).length : ℚ))))), ∃ q, 0 ≤ q ∧ z = FP.fin q := by
      intro z hz
      obtain ⟨v, hv, rfl⟩ := List.mem_map.1 hz
      obtain ⟨qv, rfl⟩ := h v hv
      refine ⟨(qv - s / ((x :: y :: t).length : ℚ)) ^ 2, sq_nonneg _, ?_⟩
      simp only [FP.sq, FP.sub, FP.neg, FP.add, FP.mul, FP.fin.injEq]
      ring
    obtain ⟨T, hT0, hT⟩ := FP.foldl_add_fin_nonneg _ 0 (le_refl 0) hmap
    have hd0 : (0 : ℚ) ≤ ((x :: y :: t).length : ℚ) - 1 := by linarith
    have hdne : ((x :: y :: t).length : ℚ) - 1 ≠ 0 := by linarith
    refine ⟨T / (((x :: y :: t).length : ℚ) - 1), div_nonneg hT0 hd0, ?_⟩
    rw [varFP_eq, hmean]
    have hTs : FP.sumList ((x :: y :: t).map (fun v => FP.sq (FP.sub v
        (FP.fin (s / ((x :: y :: t).length : ℚ)))))) = FP.fin T := hT
    rw [hTs]
    have hsub : FP.sub (FP.fin ((x :: y :: t).length : ℚ)) (FP.fin 1)
        = FP.fin (((x :: y :: t).length : ℚ) - 1) := by
      simp only [FP.sub, FP.neg, FP.add, FP.fin.injEq]
      ring
    rw [hsub]
    simp only [FP.div]
    rw [if_neg hdne]

/-- C10: over the `f64` model with IEEE special values, the strength metric
is total for finite inputs: it always returns a finite value in `[0, 1]`,
never NaN or an infinity.  In particular, when the variance of
`component + remainder` is zero — where the ratio becomes NaN (zero over
zero) or the expression `1 - ratio` becomes minus infinity (positive
numerator over zero) — the final `max` with `0.0` discards the NaN or
`-inf` and the strength is exactly `0.0`. -/
theorem strength_float_degenerate_safe (c r : List FP)
    (hc : ∀ x ∈ c, ∃ q, x = FP.fin q) (hr : ∀ x ∈ r, ∃ q, x = FP.fin q) :
    (∃ q, 0 ≤ q ∧ q ≤ 1 ∧ strengthFP c r = FP.fin q) ∧
      (varFP (List.zipWith FP.add c r) = FP.fin 0 →
        strengthFP c r = FP.fin 0) := by
  have hsr := zipWith_add_finite c r hc hr
  have hv2 := varFP_of_finite (List.zipWith FP.add c r) hsr
  have hv1 := varFP_of_finite r hr
  unfold strengthFP
  rcases hv2 with hv2 | ⟨b, hb0, hv2⟩
  · rw [hv2]
    constructor
    · rcases hv1 with hv1 | ⟨a, ha0, hv1⟩ <;> rw [hv1] <;>
        exact ⟨0, le_refl 0, zero_le_one,
          by simp [FP.div, FP.sub, FP.neg, FP.add, FP.fmax]⟩
    · intro hcontr
      simp at hcontr
  · rw [hv2]
    rcases hv1 with hv1 | ⟨a, ha0, hv1⟩
    · rw [hv1]
      constructor
      · exact ⟨0, le_refl 0, zero_le_one,
          by simp [FP.div, FP.sub, FP.neg, FP.add, FP.fmax]⟩
      · intro _
        simp [FP.div, FP.sub, FP.neg, FP.add, FP.fmax]
    · rw [hv1]
      by_cases hb : b = 0
      · subst hb
        by_cases ha : a = 0
        · subst ha
          constructor
          · exact ⟨0, le_refl 0, zero_le_one,
              by simp [FP.div, FP.sub, FP.neg, FP.add, FP.fmax]⟩
          · intro _
            simp [FP.div, FP.sub, FP.neg, FP.add, FP.fmax]
        · have ha' : 0 < a := lt_of_le_of_ne ha0 (Ne.symm ha)
          constructor
          · exact ⟨0, le_refl 0, zero_le_one,
              by simp [FP.div, FP.sub, FP.neg, FP.add, FP.fmax, ha, ha']⟩
          · intro _
            simp [FP.div, FP.sub, FP.neg, FP.add, FP.fmax, ha, ha']
      · have hb' : 0 < b := lt_of_le_of_ne hb0 (Ne.symm hb)
        constructor
        · refine ⟨max (1 + -(a / b)) 0, le_max_right _ _, ?_, ?_⟩
          · apply max_le _ zero_le_one
            have hdiv : 0 ≤ a / b := div_nonneg ha0 hb0
            linarith
          · simp only [FP.div]
            rw [if_neg hb]
            simp [FP.sub, FP.neg, FP.add, FP.fmax]
        · intro hcontr
          simp only [FP.fin.injEq] at hcontr
          exact absurd hcontr hb

/-- Witness for C10: on empty component and remainder lists (all elements
vacuously finite) the variance of the pointwise sum is exactly zero and the
strength is exactly `0.0`. -/
theorem strength_float_degenerate_safe_witness :
    varFP (List.zipWith FP.add [] []) = FP.fin 0 ∧
      strengthFP [] [] = FP.fin 0 ∧
      (∃ q, 0 ≤ q ∧ q ≤ 1 ∧ strengthFP [] [] = FP.fin q) := by
  have hv : varFP (List.zipWith FP.add ([] : List FP) []) = FP.fin 0 := by
    norm_num [varFP_eq, FP.sumList, FP.div, FP.sub, FP.add, FP.neg]
  have h := strength_float_degenerate_safe [] []
    (by intro x hx; simp at hx) (by intro x hx; simp at hx)
  exact ⟨hv, h.2 hv, h.1⟩

/-- Witness for C7: every MSTL validation rule instantiated concretely
(empty list, period 1, lambda 2, period 16 on the 30-point series, and the
mixed list with periods 2 and 16 where the series error propagates from the
second, oversized sub-fit). -/
theorem mstl_fit_validation_errors_witness :
    Mstl.fit series30 []
        = .error (.parameter ("periods must not be empty")) ∧
      Mstl.fit series30 [1]
        = .error (.parameter ("periods must be at least 2")) ∧
      MstlParams.fitWith id { lambda := some 2 } series30 [6, 10]
        = .error (.parameter ("lambda must be between 0 and 1")) ∧
      Mstl.fit series30 [16]
        = .error (.series ("series has less than two periods")) ∧
      MstlParams.fitWith id {} series30 [16]
        = .error (.series ("series has less than two periods")) ∧
      Mstl.fit series30 [2, 16]
        = .error (.series ("series has less than two periods")) ∧
      StlParams.fit {} series30 16
        = .error (.series ("series has less than two periods")) := by
  have h30 : series30.length = 30 := rfl
  obtain ⟨g1, g2, g3, g4, g5, g6⟩ := mstl_fit_validation_errors
  have h5 := g5 id {} series30 [16] (by simp) (by norm_num) (Or.inl rfl)
    (by intro p hp; rw [h30]; simp at hp; omega)
  have h6 := g6 id {} series30 [2, 16]
    (by intro p hp; simp at hp; rcases hp with rfl | rfl <;> omega)
    (Or.inl rfl)
    (fun m hm hlen => StlParams.validate_ok_default series30.length m hm hlen)
    ⟨16, by simp, by rw [h30]; omega⟩
  exact ⟨g1 id {} series30,
    g2 id {} series30 [1] 1 (by simp) (by omega),
    g3 id {} 2 series30 [6, 10] (by simp) (by norm_num) (by norm_num),
    g4,
    h5.1,
    h6.1,
    h6.2 16 (by simp) (by rw [h30]; omega)⟩

end StlRs
